import Mathlib

/-!
# GOPL exercises: a verification development

Shallow embedding of three programs of the repository and theorems about them:

* `Ex41`  (`src/ch4/ex4.1/main.go`): the number of bits in which two SHA-256 digests differ;
* `Ex72`  (`src/ex7.2/main.go`): a writer that counts the bytes written through it;
* `Ex414` (`src/ch4/ex4.14/main.go`): a file-backed cache of GitHub API responses.

Go strings and byte slices of `Ex414` are Lean strings; the conversions between `string`
and `[]byte` are the identity. Logging is left out: it has no effect on results.
The definitions come first, the theorems follow.
-/

/-- A Go `byte`. -/
abbrev Byte := Fin 256

namespace Ex41

/-- The constant sha256.Size: a digest has 32 bytes. -/
def Size : Nat := 32

/-- The function bits.OnesCount8: the number of one bits of a byte, bit by bit. -/
def OnesCount8 (x : Byte) : Nat :=
  ((List.range 8).map (fun k => (x.val >>> k) % 2)).sum

/-- The operator `^` on two bytes. -/
def xorByte (b1 b2 : Byte) : Byte :=
  ⟨(b1.val ^^^ b2.val) % 256, Nat.mod_lt _ (by decide)⟩

def bitsDifferentByte (b1 b2 : Byte) : Nat :=
  OnesCount8 (xorByte b1 b2)

/-- The loop over the indices of the array `h1`, adding up in `total`; an array
`[sha256.Size]byte` is a function from its 32 indices. -/
def countBitsDifferent (h1 h2 : Fin Size → Byte) : Nat :=
  (List.finRange Size).foldl (fun total idx => total + bitsDifferentByte (h1 idx) (h2 idx)) 0

/-- The Hamming distance of two digests, in the words of the specification: the number of bit
positions, among the 32 * 8, at which they differ. -/
def hammingDistance (h1 h2 : Fin Size → Byte) : Nat :=
  (Finset.univ.filter (fun p : Fin Size × Fin 8 =>
      (h1 p.1).val.testBit p.2.val ≠ (h2 p.1).val.testBit p.2.val)).card

/-- The population count of the low eight bits of a number, as a count of positions. -/
def popCount (x : Nat) : Nat :=
  (Finset.univ.filter (fun k : Fin 8 => x.testBit k.val = true)).card

end Ex41

namespace Ex72

/-- Go error values, kept abstract as a code. -/
abbrev GoError := Nat

/-- Conversion to `int64`: two's complement wrap-around into [-2^63, 2^63). -/
def wrapInt64 (x : Int) : Int := (x + 2 ^ 63) % 2 ^ 64 - 2 ^ 63

/-- An `io.Writer`: `Write` takes the writer's state and a byte slice and reports
the byte count `n` and an optional error, leaving the writer in a new state. -/
structure Writer (σ : Type) where
  Write : σ → List Byte → (Int × Option GoError) × σ

/-- The struct ByteCounter; `count` is an int64. The state of the underlying writer is
threaded through the calls next to it. -/
structure ByteCounter (σ : Type) where
  count : Int
  wr : Writer σ

/-- The function CountingWriter. The `*int64` it returns points to the field `count`:
reading through it is reading `count` of the current state. -/
def CountingWriter {σ : Type} (w : Writer σ) : ByteCounter σ :=
  { wr := w, count := 0 }

/-- The method Write: `bc.count += int64(n)`, in int64 arithmetic. -/
def ByteCounter.Write {σ : Type} (bc : ByteCounter σ) (s : σ) (p : List Byte) :
    (Int × Option GoError) × ByteCounter σ × σ :=
  match bc.wr.Write s p with
  | ((n, err), s1) => ((n, err), { bc with count := wrapInt64 (bc.count + wrapInt64 n) }, s1)

/-- A finite sequence of `Write` calls on the counting writer, one per slice of `ps`,
made whatever the earlier calls returned. -/
def writeCalls {σ : Type} : ByteCounter σ → σ → List (List Byte) → ByteCounter σ × σ
  | bc, s, [] => (bc, s)
  | bc, s, p :: ps =>
    match bc.Write s p with
    | (_, bc1, s1) => writeCalls bc1 s1 ps

/-- The byte counts `n` the underlying writer reports for the same sequence of calls. -/
def reported {σ : Type} (w : Writer σ) : σ → List (List Byte) → List Int
  | _, [] => []
  | s, p :: ps =>
    match w.Write s p with
    | ((n, _), s1) => n :: reported w s1 ps

/-- A writer that accepts every byte. -/
def acceptAll : Writer Unit :=
  { Write := fun _ p => ((p.length, none), ()) }

/-- A writer that accepts at most `k` bytes of each slice and reports a short write. -/
def shortWriter (k : Nat) : Writer Unit :=
  { Write := fun _ p => if p.length ≤ k then ((p.length, none), ()) else ((k, some 1), ()) }

end Ex72

namespace Ex414

/-- Go `error` values that occur in the program. `ErrNotExist` is the one error that
`os.IsNotExist` recognises; `errno` stands for every other failed system call
(permission denied, not a directory, no space left, I/O error, ...). -/
inductive Error where
  | ErrNotExist
  | errno (code : Nat)
  | transport (code : Nat)
  | SyntaxError
  | UnmarshalTypeError
  deriving DecidableEq, Repr

/-- The function os.IsNotExist, on an `error` that may be nil. -/
def IsNotExist : Option Error → Bool
  | some Error.ErrNotExist => true
  | _ => false

/-- State of the local filesystem. Paths are the strings handed to the system calls.
`files` and `dirs` hold the regular files (with their content) and the directories;
the remaining fields are the conditions under which a system call fails with an error
other than "does not exist": a path that cannot be resolved (`lookupFault`, which hits
stat and open alike), a directory that cannot be made, a file that cannot be created,
a file whose writes fail after `n` bytes, a file that cannot be opened for reading.
No operation changes these conditions. -/
structure FS where
  files : String → Option String
  dirs : String → Bool
  lookupFault : String → Option Nat
  mkdirFault : String → Option Nat
  createFault : String → Option Nat
  writeFault : String → Option (Nat × Nat)
  readFault : String → Option Nat

/-- The errno "not a directory". -/
def ENOTDIR : Nat := 20

/-- The errno "is a directory". -/
def EISDIR : Nat := 21

/-- The function os.Stat, of which the program keeps only the error. -/
def Stat (fs : FS) (name : String) : Option Error :=
  match fs.lookupFault name with
  | some e => some (Error.errno e)
  | none =>
    if (fs.files name).isSome || fs.dirs name then none else some Error.ErrNotExist

/-- Splits a path at every slash. -/
def splitSlash : List Char → List (List Char)
  | [] => [[]]
  | c :: cs =>
    match splitSlash cs with
    | [] => [[c]]
    | x :: xs => if c = '/' then [] :: x :: xs else (c :: x) :: xs

/-- One step of filepath.Clean over the path elements kept so far (innermost first). -/
def cleanStep (rooted : Bool) (stack : List (List Char)) (elem : List Char) : List (List Char) :=
  if elem = [] ∨ elem = ['.'] then stack
  else if elem = ['.', '.'] then
    match stack with
    | [] => if rooted then [] else [elem]
    | top :: rest => if top = ['.', '.'] then elem :: stack else rest
  else elem :: stack

/-- Joins path elements with slashes. -/
def joinSlash : List (List Char) → List Char
  | [] => []
  | [x] => x
  | x :: y :: rest => x ++ '/' :: joinSlash (y :: rest)

/-- The function filepath.Clean for slash-separated paths: the shortest lexically
equivalent path. -/
def Clean (path : List Char) : List Char :=
  let rooted := path.head? = some '/'
  let body := joinSlash ((splitSlash path).foldl (cleanStep rooted) []).reverse
  if rooted then '/' :: body else if body = [] then ['.'] else body

/-- The function filepath.Dir: all but the last element of the path, cleaned. -/
def Dir (path : String) : String :=
  String.mk (Clean (path.data.reverse.dropWhile (fun c => c ≠ '/')).reverse)

/-- The directory `path` and each of its ancestors, as named in `path`. -/
def ancestors (path : String) : List String :=
  ((List.range (path.data.length + 1)).filter
      (fun i => 0 < i ∧ (i = path.data.length ∨ path.data.get? i = some '/'))).map
    (fun i => String.mk (path.data.take i))

/-- The function os.MkdirAll: makes `path` and any missing parent; nothing to do when
`path` already is a directory. -/
def MkdirAll (fs : FS) (path : String) : Option Error × FS :=
  if fs.dirs path then (none, fs)
  else
    match fs.mkdirFault path with
    | some e => (some (Error.errno e), fs)
    | none =>
      if (fs.files path).isSome then (some (Error.errno ENOTDIR), fs)
      else (none, { fs with dirs := fun q => decide (q ∈ ancestors path) || fs.dirs q })

/-- The function os.Create: creates the file, or truncates it when it exists. -/
def Create (fs : FS) (name : String) : Option Error × FS :=
  match fs.lookupFault name with
  | some e => (some (Error.errno e), fs)
  | none =>
    match fs.createFault name with
    | some e => (some (Error.errno e), fs)
    | none =>
      if fs.dirs name then (some (Error.errno EISDIR), fs)
      else (none, { fs with files := fun q => if q = name then some "" else fs.files q })

/-- A response body (`io.ReadCloser`): the bytes it delivers, then end of stream (`err`
is nil) or a read error. -/
structure Body where
  data : String
  err : Option Error

/-- What `http.Get` does for each URI: an error, or a response with its body. -/
abbrev HttpGet := String → Except Error Body

/-- The function io.Copy from a response body into the file just created at `name`:
the bytes read are written in order; a failed write leaves what was written before it. -/
def Copy (fs : FS) (name : String) (src : Body) : Option Error × FS :=
  match fs.writeFault name with
  | some (limit, e) =>
    if limit < src.data.length then
      (some (Error.errno e),
        { fs with files := fun q =>
            if q = name then some (String.mk (src.data.data.take limit)) else fs.files q })
    else
      (src.err, { fs with files := fun q => if q = name then some src.data else fs.files q })
  | none =>
    (src.err, { fs with files := fun q => if q = name then some src.data else fs.files q })

/-- The function ioutil.ReadFile. -/
def ReadFile (fs : FS) (name : String) : String × Option Error :=
  match fs.lookupFault name with
  | some e => ("", some (Error.errno e))
  | none =>
    match fs.files name with
    | none =>
      if fs.dirs name then ("", some (Error.errno EISDIR)) else ("", some Error.ErrNotExist)
    | some content =>
      match fs.readFault name with
      | some e => ("", some (Error.errno e))
      | none => (content, none)

/-- The type Kind: a string. -/
abbrev Kind := String

/-- The struct GhApiRepoCache. -/
structure GhApiRepoCache where
  Repo : String

/-- The package variable githubApi, which nothing assigns to. -/
def githubApi : String := "https://api.github.com"

/-- The method getUri: `fmt.Sprintf("%s/repos/%s/%s", githubApi, c.Repo, kind)`. -/
def GhApiRepoCache.getUri (c : GhApiRepoCache) (kind : Kind) : String :=
  githubApi ++ "/repos/" ++ c.Repo ++ "/" ++ kind

/-- The function doHttpGetStreaming: the error of `http.Get`, or the body of its
response, whatever the status of the response. -/
def doHttpGetStreaming (net : HttpGet) (uri : String) : Except Error Body :=
  match net uri with
  | Except.error err => Except.error err
  | Except.ok resp => Except.ok resp

/-- The local `cacheFile` of `get`: `fmt.Sprintf("./data/%s/%s.json", c.Repo, kind)`. -/
def GhApiRepoCache.cacheFile (c : GhApiRepoCache) (kind : Kind) : String :=
  "./data/" ++ c.Repo ++ "/" ++ kind ++ ".json"

/-- What a call of `get` returns and does: the returned pair, the filesystem it leaves,
and the URIs it requested from the transport, in order. -/
structure GetResult where
  data : String
  err : Option Error
  fs : FS
  requests : List String

/-- The tail of `get`: read the cache file and return its content. -/
def readCached (fs : FS) (cacheFile : String) (requests : List String) : GetResult :=
  match ReadFile fs cacheFile with
  | (_, some err) => { data := "", err := some err, fs := fs, requests := requests }
  | (res, none) => { data := res, err := none, fs := fs, requests := requests }

/-- The method get. Each `return` of the source is one result here; the deferred
`stream.Close()` changes nothing that is modelled. -/
def GhApiRepoCache.get (c : GhApiRepoCache) (kind : Kind) (net : HttpGet) (fs : FS) : GetResult :=
  let cacheFile := c.cacheFile kind
  let err := Stat fs cacheFile
  if IsNotExist err then
    match MkdirAll fs (Dir cacheFile) with
    | (some err, fs1) => { data := "", err := some err, fs := fs1, requests := [] }
    | (none, fs1) =>
      match Create fs1 cacheFile with
      | (some err, fs2) => { data := "", err := some err, fs := fs2, requests := [] }
      | (none, fs2) =>
        match doHttpGetStreaming net (c.getUri kind) with
        | Except.error err =>
          { data := "", err := some err, fs := fs2, requests := [c.getUri kind] }
        | Except.ok stream =>
          match Copy fs2 cacheFile stream with
          | (some err, fs3) =>
            { data := "", err := some err, fs := fs3, requests := [c.getUri kind] }
          | (none, fs3) => readCached fs3 cacheFile [c.getUri kind]
  else if err.isSome then
    { data := "", err := err, fs := fs, requests := [] }
  else
    readCached fs cacheFile []

/-- A filesystem with no file, no directory and no failing operation. -/
def emptyFS : FS :=
  { files := fun _ => none, dirs := fun _ => false, lookupFault := fun _ => none,
    mkdirFault := fun _ => none, createFault := fun _ => none, writeFault := fun _ => none,
    readFault := fun _ => none }

/-- A transport that fails on every request. -/
def failingNet : HttpGet := fun _ => Except.error (Error.transport 1)

/-! ### The syntax check of encoding/json (scanner.go), one step function per state -/

/-- Entries of the scanner's parse stack (encoding/json, scanner.go). -/
inductive ParseState where
  | parseObjectKey
  | parseObjectValue
  | parseArrayValue
  deriving DecidableEq, Repr

/-- Result codes of a scanner step. -/
inductive ScanOp where
  | scanContinue
  | scanBeginLiteral
  | scanBeginObject
  | scanObjectKey
  | scanObjectValue
  | scanEndObject
  | scanBeginArray
  | scanArrayValue
  | scanEndArray
  | scanSkipSpace
  | scanEnd
  | scanError
  deriving DecidableEq, Repr

/-- The step function the scanner is to run on the next byte. -/
inductive StepFn where
  | stateBeginValue
  | stateBeginValueOrEmpty
  | stateBeginStringOrEmpty
  | stateBeginString
  | stateEndValue
  | stateEndTop
  | stateInString
  | stateInStringEsc
  | stateInStringEscU
  | stateInStringEscU1
  | stateInStringEscU12
  | stateInStringEscU123
  | stateNeg
  | state1
  | state0
  | stateDot
  | stateDot0
  | stateE
  | stateESign
  | stateE0
  | stateT
  | stateTr
  | stateTru
  | stateF
  | stateFa
  | stateFal
  | stateFals
  | stateN
  | stateNu
  | stateNul
  | stateError
  deriving DecidableEq, Repr

/-- The JSON scanner of encoding/json: a pushdown automaton stepped once per byte.
`parseState` has its top at the head; `err` records that a syntax error was found. -/
structure Scanner where
  step : StepFn
  endTop : Bool
  parseState : List ParseState
  err : Bool
  deriving DecidableEq, Repr

def Scanner.reset : Scanner :=
  { step := StepFn.stateBeginValue, endTop := false, parseState := [], err := false }

def Scanner.error (s : Scanner) : ScanOp × Scanner :=
  (ScanOp.scanError, { s with step := StepFn.stateError, err := true })

def Scanner.goto (s : Scanner) (f : StepFn) (op : ScanOp) : ScanOp × Scanner :=
  (op, { s with step := f })

/-- The constant maxNestingDepth of scanner.go: how deep arrays and objects may nest. -/
def maxNestingDepth : Nat := 10000

/-- The scanner's pushParseState, entered with the next step function already set to
`next`: the new entry goes on the stack, and a stack grown beyond maxNestingDepth is
a syntax error ("exceeded max depth"). -/
def pushParseState (s : Scanner) (next : StepFn) (newParseState : ParseState)
    (successState : ScanOp) : ScanOp × Scanner :=
  if (newParseState :: s.parseState).length ≤ maxNestingDepth then
    (successState, { s with step := next, parseState := newParseState :: s.parseState })
  else
    Scanner.error { s with step := next, parseState := newParseState :: s.parseState }

def isSpace (c : Char) : Bool :=
  c = ' ' || c = '\t' || c = '\r' || c = '\n'

def isDigit (c : Char) : Bool :=
  '0'.toNat ≤ c.toNat && c.toNat ≤ '9'.toNat

def isHex (c : Char) : Bool :=
  isDigit c || ('a'.toNat ≤ c.toNat && c.toNat ≤ 'f'.toNat)
    || ('A'.toNat ≤ c.toNat && c.toNat ≤ 'F'.toNat)

def stateEndTop (s : Scanner) (c : Char) : ScanOp × Scanner :=
  if !isSpace c then (ScanOp.scanEnd, (s.error).2) else (ScanOp.scanEnd, s)

def popParseState (s : Scanner) : Scanner :=
  match s.parseState.tail with
  | [] => { s with parseState := [], step := StepFn.stateEndTop, endTop := true }
  | rest => { s with parseState := rest, step := StepFn.stateEndValue }

def stateEndValue (s : Scanner) (c : Char) : ScanOp × Scanner :=
  match s.parseState with
  | [] => stateEndTop { s with step := StepFn.stateEndTop, endTop := true } c
  | ps :: rest =>
    if isSpace c then s.goto StepFn.stateEndValue ScanOp.scanSkipSpace
    else
      match ps with
      | ParseState.parseObjectKey =>
        if c = ':' then
          ({ s with parseState := ParseState.parseObjectValue :: rest }).goto
            StepFn.stateBeginValue ScanOp.scanObjectKey
        else s.error
      | ParseState.parseObjectValue =>
        if c = ',' then
          ({ s with parseState := ParseState.parseObjectKey :: rest }).goto
            StepFn.stateBeginString ScanOp.scanObjectValue
        else if c = '\x7d' then (ScanOp.scanEndObject, popParseState s)
        else s.error
      | ParseState.parseArrayValue =>
        if c = ',' then s.goto StepFn.stateBeginValue ScanOp.scanArrayValue
        else if c = ']' then (ScanOp.scanEndArray, popParseState s)
        else s.error

def stateBeginValue (s : Scanner) (c : Char) : ScanOp × Scanner :=
  if isSpace c then (ScanOp.scanSkipSpace, s)
  else if c = '\x7b' then
    pushParseState s StepFn.stateBeginStringOrEmpty ParseState.parseObjectKey
      ScanOp.scanBeginObject
  else if c = '[' then
    pushParseState s StepFn.stateBeginValueOrEmpty ParseState.parseArrayValue
      ScanOp.scanBeginArray
  else if c = '"' then s.goto StepFn.stateInString ScanOp.scanBeginLiteral
  else if c = '-' then s.goto StepFn.stateNeg ScanOp.scanBeginLiteral
  else if c = '0' then s.goto StepFn.state0 ScanOp.scanBeginLiteral
  else if c = 't' then s.goto StepFn.stateT ScanOp.scanBeginLiteral
  else if c = 'f' then s.goto StepFn.stateF ScanOp.scanBeginLiteral
  else if c = 'n' then s.goto StepFn.stateN ScanOp.scanBeginLiteral
  else if '1'.toNat ≤ c.toNat && c.toNat ≤ '9'.toNat then
    s.goto StepFn.state1 ScanOp.scanBeginLiteral
  else s.error

def stateBeginValueOrEmpty (s : Scanner) (c : Char) : ScanOp × Scanner :=
  if isSpace c then (ScanOp.scanSkipSpace, s)
  else if c = ']' then stateEndValue s c
  else stateBeginValue s c

def stateBeginString (s : Scanner) (c : Char) : ScanOp × Scanner :=
  if isSpace c then (ScanOp.scanSkipSpace, s)
  else if c = '"' then s.goto StepFn.stateInString ScanOp.scanBeginLiteral
  else s.error

def stateBeginStringOrEmpty (s : Scanner) (c : Char) : ScanOp × Scanner :=
  if isSpace c then (ScanOp.scanSkipSpace, s)
  else if c = '\x7d' then
    stateEndValue { s with parseState := ParseState.parseObjectValue :: s.parseState.tail } c
  else stateBeginString s c

def stateInString (s : Scanner) (c : Char) : ScanOp × Scanner :=
  if c = '"' then s.goto StepFn.stateEndValue ScanOp.scanContinue
  else if c = '\\' then s.goto StepFn.stateInStringEsc ScanOp.scanContinue
  else if c.toNat < 0x20 then s.error
  else (ScanOp.scanContinue, s)

def stateInStringEsc (s : Scanner) (c : Char) : ScanOp × Scanner :=
  if c = 'b' || c = 'f' || c = 'n' || c = 'r' || c = 't' || c = '\\' || c = '/' || c = '"' then
    s.goto StepFn.stateInString ScanOp.scanContinue
  else if c = 'u' then s.goto StepFn.stateInStringEscU ScanOp.scanContinue
  else s.error

/-- The four steps after a backslash-u escape: each wants a hexadecimal digit. -/
def stateHex (next : StepFn) (s : Scanner) (c : Char) : ScanOp × Scanner :=
  if isHex c then s.goto next ScanOp.scanContinue else s.error

def stateNeg (s : Scanner) (c : Char) : ScanOp × Scanner :=
  if c = '0' then s.goto StepFn.state0 ScanOp.scanContinue
  else if '1'.toNat ≤ c.toNat && c.toNat ≤ '9'.toNat then
    s.goto StepFn.state1 ScanOp.scanContinue
  else s.error

def state0 (s : Scanner) (c : Char) : ScanOp × Scanner :=
  if c = '.' then s.goto StepFn.stateDot ScanOp.scanContinue
  else if c = 'e' || c = 'E' then s.goto StepFn.stateE ScanOp.scanContinue
  else stateEndValue s c

def state1 (s : Scanner) (c : Char) : ScanOp × Scanner :=
  if isDigit c then s.goto StepFn.state1 ScanOp.scanContinue else state0 s c

def stateDot (s : Scanner) (c : Char) : ScanOp × Scanner :=
  if isDigit c then s.goto StepFn.stateDot0 ScanOp.scanContinue else s.error

def stateDot0 (s : Scanner) (c : Char) : ScanOp × Scanner :=
  if isDigit c then (ScanOp.scanContinue, s)
  else if c = 'e' || c = 'E' then s.goto StepFn.stateE ScanOp.scanContinue
  else stateEndValue s c

def stateESign (s : Scanner) (c : Char) : ScanOp × Scanner :=
  if isDigit c then s.goto StepFn.stateE0 ScanOp.scanContinue else s.error

def stateE (s : Scanner) (c : Char) : ScanOp × Scanner :=
  if c = '+' || c = '-' then s.goto StepFn.stateESign ScanOp.scanContinue
  else stateESign s c

def stateE0 (s : Scanner) (c : Char) : ScanOp × Scanner :=
  if isDigit c then (ScanOp.scanContinue, s) else stateEndValue s c

/-- The steps inside the literals true, false and null: each wants one given byte. -/
def stateLit (want : Char) (next : StepFn) (s : Scanner) (c : Char) : ScanOp × Scanner :=
  if c = want then s.goto next ScanOp.scanContinue else s.error

/-- Runs the scanner's current step function on the byte `c`. -/
def Scanner.run (s : Scanner) (c : Char) : ScanOp × Scanner :=
  match s.step with
  | StepFn.stateBeginValue => stateBeginValue s c
  | StepFn.stateBeginValueOrEmpty => stateBeginValueOrEmpty s c
  | StepFn.stateBeginStringOrEmpty => stateBeginStringOrEmpty s c
  | StepFn.stateBeginString => stateBeginString s c
  | StepFn.stateEndValue => stateEndValue s c
  | StepFn.stateEndTop => stateEndTop s c
  | StepFn.stateInString => stateInString s c
  | StepFn.stateInStringEsc => stateInStringEsc s c
  | StepFn.stateInStringEscU => stateHex StepFn.stateInStringEscU1 s c
  | StepFn.stateInStringEscU1 => stateHex StepFn.stateInStringEscU12 s c
  | StepFn.stateInStringEscU12 => stateHex StepFn.stateInStringEscU123 s c
  | StepFn.stateInStringEscU123 => stateHex StepFn.stateInString s c
  | StepFn.stateNeg => stateNeg s c
  | StepFn.state1 => state1 s c
  | StepFn.state0 => state0 s c
  | StepFn.stateDot => stateDot s c
  | StepFn.stateDot0 => stateDot0 s c
  | StepFn.stateE => stateE s c
  | StepFn.stateESign => stateESign s c
  | StepFn.stateE0 => stateE0 s c
  | StepFn.stateT => stateLit 'r' StepFn.stateTr s c
  | StepFn.stateTr => stateLit 'u' StepFn.stateTru s c
  | StepFn.stateTru => stateLit 'e' StepFn.stateEndValue s c
  | StepFn.stateF => stateLit 'a' StepFn.stateFa s c
  | StepFn.stateFa => stateLit 'l' StepFn.stateFal s c
  | StepFn.stateFal => stateLit 's' StepFn.stateFals s c
  | StepFn.stateFals => stateLit 'e' StepFn.stateEndValue s c
  | StepFn.stateN => stateLit 'u' StepFn.stateNu s c
  | StepFn.stateNu => stateLit 'l' StepFn.stateNul s c
  | StepFn.stateNul => stateLit 'l' StepFn.stateEndValue s c
  | StepFn.stateError => (ScanOp.scanError, s)

/-- The scanner's `eof`: whether the input may end here. -/
def Scanner.eof (s : Scanner) : ScanOp :=
  if s.err then ScanOp.scanError
  else if s.endTop then ScanOp.scanEnd
  else if (s.run ' ').2.endTop then ScanOp.scanEnd
  else ScanOp.scanError

/-- The loop of `checkValid`: step through the bytes, stop at the first error. -/
def scanBytes : Scanner → List Char → Bool
  | s, [] => s.eof != ScanOp.scanError
  | s, c :: cs =>
    match s.run c with
    | (ScanOp.scanError, _) => false
    | (_, s1) => scanBytes s1 cs

/-- The function checkValid of encoding/json: whether `data` is one well-formed JSON
value, nested no deeper than maxNestingDepth; `false` stands for the SyntaxError it
returns. -/
def checkValid (data : String) : Bool := scanBytes Scanner.reset data.data

/-- A `time.Time`, kept as the RFC 3339 text it is decoded from. -/
abbrev Time := String

/-- The struct User. -/
structure User where
  Login : String
  HtmlUrl : String
  deriving DecidableEq, Repr

/-- The struct Issue; a nil `*User` is `none`. -/
structure Issue where
  Number : Int
  Id : Int
  HtmlUrl : String
  Title : String
  State : String
  CreatedAt : Time
  User : Option Ex414.User
  Assignee : Option Ex414.User
  Body : String
  deriving DecidableEq, Repr

/-- The struct Milestones. -/
structure Milestones where
  Number : Int
  Id : Int
  HtmlUrl : String
  Title : String
  Description : String
  Creator : Option User
  State : String
  CreatedAt : Time
  deriving DecidableEq, Repr

/-- Kind of the top-level JSON value, which the decoder reads off its first byte. -/
inductive TopLevel where
  | array
  | object
  | string
  | number
  | bool
  | null
  deriving DecidableEq, Repr

/-- The kind of the first value of `data`, past leading white space. -/
def topLevel (data : String) : TopLevel :=
  match data.data.dropWhile isSpace with
  | '[' :: _ => TopLevel.array
  | '\x7b' :: _ => TopLevel.object
  | '"' :: _ => TopLevel.string
  | 'n' :: _ => TopLevel.null
  | 't' :: _ => TopLevel.bool
  | 'f' :: _ => TopLevel.bool
  | _ => TopLevel.number

/-- The function json.Unmarshal into a pointer to a nil slice of structs; the result is
the slice the pointer holds afterwards (`none` is the nil slice) and the error.
The input is checked for syntax first. A top-level null sets the slice to nil and is no
error; an object, string, number or boolean leaves it untouched and is an
UnmarshalTypeError. `elems` stands for the decoding of the elements of a top-level
array into the struct type: the elements decoded and the first error met, if any. -/
def Unmarshal {α : Type} (elems : String → List α × Option Error) (data : String) :
    Option (List α) × Option Error :=
  if checkValid data then
    match topLevel data with
    | TopLevel.array => (some (elems data).1, (elems data).2)
    | TopLevel.null => (none, none)
    | _ => (none, some Error.UnmarshalTypeError)
  else (none, some Error.SyntaxError)

/-- What `Issues` and `Milestones` return and do: the slice (`none` is nil), the
error, the filesystem left behind and the URIs requested. -/
structure Decoded (α : Type) where
  items : Option (List α)
  err : Option Error
  fs : FS
  requests : List String

/-- The method Issues. -/
def GhApiRepoCache.Issues (elems : String → List Issue × Option Error) (c : GhApiRepoCache)
    (net : HttpGet) (fs : FS) : Decoded Issue :=
  let r := c.get "issues" net fs
  match r.err with
  | some err => { items := none, err := some err, fs := r.fs, requests := r.requests }
  | none =>
    match Unmarshal elems r.data with
    | (_, some err) => { items := none, err := some err, fs := r.fs, requests := r.requests }
    | (issues, none) => { items := issues, err := none, fs := r.fs, requests := r.requests }

/-- The method Milestones. -/
def GhApiRepoCache.Milestones (elems : String → List Milestones × Option Error)
    (c : GhApiRepoCache) (net : HttpGet) (fs : FS) : Decoded Milestones :=
  let r := c.get "milestones" net fs
  match r.err with
  | some err => { items := none, err := some err, fs := r.fs, requests := r.requests }
  | none =>
    match Unmarshal elems r.data with
    | (_, some err) => { items := none, err := some err, fs := r.fs, requests := r.requests }
    | (milestones, none) =>
      { items := milestones, err := none, fs := r.fs, requests := r.requests }

/-- The lowercase form of a string. -/
def lowercase (s : String) : String := String.mk (s.data.map Char.toLower)

/-- A filesystem holding the regular files listed, each with its content. -/
def fsWithFiles (entries : List (String × String)) : FS :=
  { emptyFS with files := fun q => entries.lookup q }

/-- An empty filesystem on which `name` cannot be resolved: stat fails with `code`. -/
def fsLookupFault (name : String) (code : Nat) : FS :=
  { emptyFS with lookupFault := fun q => if q = name then some code else none }

/-- An empty filesystem on which the file `name` cannot be opened for reading, as under
a umask that takes the read permission off the files the process creates. -/
def fsReadFault (name : String) (code : Nat) : FS :=
  { emptyFS with readFault := fun q => if q = name then some code else none }

/-- A transport that answers every request with the body `b`. -/
def servingNet (b : String) : HttpGet := fun _ => Except.ok { data := b, err := none }

/-- The scanner inside `n` open arrays, none of which has an element yet. -/
def openArrays (n : Nat) : Scanner :=
  { step := if n = 0 then StepFn.stateBeginValue else StepFn.stateBeginValueOrEmpty,
    endTop := false, parseState := List.replicate n ParseState.parseArrayValue, err := false }

/-- The scanner after the end of an array, with `n` arrays still open around it. -/
def closedArray (n : Nat) : Scanner :=
  { step := if n = 0 then StepFn.stateEndTop else StepFn.stateEndValue,
    endTop := decide (n = 0), parseState := List.replicate n ParseState.parseArrayValue,
    err := false }

/-- The text of `n` arrays nested in one another, the innermost empty. -/
def nestedArrays (n : Nat) : String :=
  String.mk (List.replicate n '[' ++ List.replicate n ']')

/-- An element decoder for tests: it is never reached on input that is not an array. -/
def noElems {α : Type} : String → List α × Option Error := fun _ => ([], none)

end Ex414

/-! ## Theorems -/

namespace Ex41

theorem xor_lt_256 (a b : Byte) : a.val ^^^ b.val < 256 :=
  Nat.xor_lt_two_pow (n := 8) a.isLt b.isLt

theorem bit_as_nat (x k : Nat) : (x >>> k) % 2 = if x.testBit k then 1 else 0 := by
  rw [Nat.testBit_to_div_mod, Nat.shiftRight_eq_div_pow]
  rcases Nat.mod_two_eq_zero_or_one (x / 2 ^ k) with h | h <;> simp [h]

theorem OnesCount8_eq (x : Byte) : OnesCount8 x = popCount x.val := by
  unfold OnesCount8 popCount
  simp only [bit_as_nat]
  rw [Finset.card_filter]
  rw [Fin.sum_univ_eq_sum_range (fun k => if x.val.testBit k = true then 1 else 0) 8]
  simp only [Finset.sum_range_succ, Finset.sum_range_zero, List.range, List.range.loop, List.map,
    List.sum_cons, List.sum_nil]
  omega

theorem foldl_add_eq_sum {α : Type} (f : α → Nat) (l : List α) (a : Nat) :
    l.foldl (fun total idx => total + f idx) a = a + (l.map f).sum := by
  induction l generalizing a with
  | nil => simp
  | cons x xs ih => simp [ih, Nat.add_assoc]

theorem countBitsDifferent_eq_sum (h1 h2 : Fin Size → Byte) :
    countBitsDifferent h1 h2 = ∑ i : Fin Size, bitsDifferentByte (h1 i) (h2 i) := by
  unfold countBitsDifferent
  rw [foldl_add_eq_sum, Nat.zero_add]
  rw [← List.ofFn_eq_map, List.sum_ofFn]

theorem bitsDifferentByte_eq (a b : Byte) :
    bitsDifferentByte a b =
      (Finset.univ.filter (fun k : Fin 8 => a.val.testBit k.val ≠ b.val.testBit k.val)).card := by
  unfold bitsDifferentByte
  rw [OnesCount8_eq]
  unfold popCount xorByte
  simp only [Nat.mod_eq_of_lt (xor_lt_256 a b), Nat.testBit_xor]
  congr 1
  ext k
  simp only [Finset.mem_filter, Finset.mem_univ, true_and]
  cases a.val.testBit k.val <;> cases b.val.testBit k.val <;> simp

/-- C10. For all 32-byte arrays, `countBitsDifferent` is their Hamming distance: the
number of bit positions, among the 256, at which the two differ; and it is the sum over
the 32 byte indices of the population count of the exclusive or of the two bytes. -/
theorem countBitsDifferent_hamming (h1 h2 : Fin Size → Byte) :
    countBitsDifferent h1 h2 = hammingDistance h1 h2
    ∧ countBitsDifferent h1 h2 = ∑ i : Fin Size, popCount ((h1 i).val ^^^ (h2 i).val) := by
  constructor
  · rw [countBitsDifferent_eq_sum]
    unfold hammingDistance
    simp only [bitsDifferentByte_eq]
    rw [Finset.card_filter, Fintype.sum_prod_type]
    apply Finset.sum_congr rfl
    intro i _
    rw [Finset.card_filter]
  · rw [countBitsDifferent_eq_sum]
    apply Finset.sum_congr rfl
    intro i _
    unfold bitsDifferentByte
    rw [OnesCount8_eq]
    unfold xorByte
    simp only [Nat.mod_eq_of_lt (xor_lt_256 (h1 i) (h2 i))]

end Ex41

namespace Ex72

theorem wrapInt64_of_range (a : Int) (h1 : -2 ^ 63 ≤ a) (h2 : a < 2 ^ 63) : wrapInt64 a = a := by
  unfold wrapInt64
  omega

theorem writeCalls_count {σ : Type} (ps : List (List Byte)) (bc : ByteCounter σ) (s : σ)
    (hc : wrapInt64 bc.count = bc.count) :
    (writeCalls bc s ps).1.count = wrapInt64 (bc.count + (reported bc.wr s ps).sum) := by
  induction ps generalizing bc s with
  | nil => simp [writeCalls, reported, hc]
  | cons p ps ih =>
    simp only [writeCalls, ByteCounter.Write, reported, List.sum_cons]
    rw [ih _ _ (by simp only []; unfold wrapInt64; omega)]
    simp only []
    unfold wrapInt64
    omega

theorem reported_of_accepting {σ : Type} (w : Writer σ)
    (hw : ∀ s p, (w.Write s p).1.1 = (p.length : Int)) (ps : List (List Byte)) (s : σ) :
    reported w s ps = ps.map (fun p => (p.length : Int)) := by
  induction ps generalizing s with
  | nil => rfl
  | cons p ps ih =>
    simp only [reported, List.map_cons]
    rw [ih, hw]

/-- C9 (as stated, refuted). Through a counting writer on a writer that accepts every
byte, 2^33 calls of `Write` with one GiB each make 2^63 bytes; the counter, an int64,
has wrapped around and is not the sum of the byte counts reported. -/
theorem CountingWriter_overflow :
    (reported acceptAll () (List.replicate (2 ^ 33) (List.replicate (2 ^ 30) (0 : Byte)))).sum
        = 2 ^ 63
    ∧ (writeCalls (CountingWriter acceptAll) ()
          (List.replicate (2 ^ 33) (List.replicate (2 ^ 30) (0 : Byte)))).1.count = -2 ^ 63
    ∧ (writeCalls (CountingWriter acceptAll) ()
          (List.replicate (2 ^ 33) (List.replicate (2 ^ 30) (0 : Byte)))).1.count
        ≠ (reported acceptAll ()
            (List.replicate (2 ^ 33) (List.replicate (2 ^ 30) (0 : Byte)))).sum := by
  have hs : (reported acceptAll ()
      (List.replicate (2 ^ 33) (List.replicate (2 ^ 30) (0 : Byte)))).sum = 2 ^ 63 := by
    rw [reported_of_accepting acceptAll (fun _ _ => rfl)]
    simp only [List.map_replicate, List.length_replicate, List.sum_replicate]
    norm_num
  have h := writeCalls_count (List.replicate (2 ^ 33) (List.replicate (2 ^ 30) (0 : Byte)))
    (CountingWriter acceptAll) () (by simp [CountingWriter, wrapInt64])
  have hc : (writeCalls (CountingWriter acceptAll) ()
      (List.replicate (2 ^ 33) (List.replicate (2 ^ 30) (0 : Byte)))).1.count = -2 ^ 63 := by
    rw [h]
    simp only [CountingWriter, Int.zero_add]
    rw [hs]
    unfold wrapInt64
    norm_num
  refine ⟨hs, hc, ?_⟩
  rw [hs, hc]
  norm_num

/-- C9 (amended). The counter of `CountingWriter w` starts at 0; after any finite
sequence of `Write` calls it is the sum of the byte counts that `w.Write` reported for
them, errors or not, reduced to an int64; so it equals that sum as long as the sum is
in the range of an int64, and in particular, when `w` accepts every byte and fewer than
2^63 bytes were written in all, it equals the total length of the data written. -/
theorem CountingWriter_count {σ : Type} (w : Writer σ) (s : σ) (ps : List (List Byte)) :
    (CountingWriter w).count = 0
    ∧ (writeCalls (CountingWriter w) s ps).1.count = wrapInt64 (reported w s ps).sum
    ∧ (-2 ^ 63 ≤ (reported w s ps).sum → (reported w s ps).sum < 2 ^ 63 →
        (writeCalls (CountingWriter w) s ps).1.count = (reported w s ps).sum)
    ∧ ((∀ s p, (w.Write s p).1.1 = (p.length : Int)) →
        ((ps.map List.length).sum : Int) < 2 ^ 63 →
        (writeCalls (CountingWriter w) s ps).1.count = ((ps.map List.length).sum : Int)) := by
  have h := writeCalls_count ps (CountingWriter w) s (by simp [CountingWriter, wrapInt64])
  simp only [CountingWriter, Int.zero_add] at h
  have hc : (writeCalls (CountingWriter w) s ps).1.count = wrapInt64 (reported w s ps).sum := h
  refine ⟨rfl, hc, fun h1 h2 => ?_, fun hw hlt => ?_⟩
  · rw [hc]
    exact wrapInt64_of_range _ h1 h2
  · have hsum : (reported w s ps).sum = ((ps.map List.length).sum : Int) := by
      rw [reported_of_accepting w hw]
      clear hc h hlt
      induction ps with
      | nil => rfl
      | cons p ps ih => simp only [List.map_cons, List.sum_cons, Nat.cast_add, ih]
    rw [hc, hsum]
    exact wrapInt64_of_range _ (by omega) hlt

/-- C9 (amended), at the input of `main`: the twelve bytes of "Hello world\n" written to
a writer that accepts every byte, and a short write that also reports an error. -/
theorem CountingWriter_count_witness :
    (writeCalls (CountingWriter acceptAll) () [[72, 101, 108, 108, 111, 32, 119, 111, 114, 108,
        100, 10]]).1.count = 12
    ∧ (writeCalls (CountingWriter (shortWriter 2)) () [[72, 101, 108], [10]]).1.count = 3 :=
  ⟨(CountingWriter_count acceptAll () [[72, 101, 108, 108, 111, 32, 119, 111, 114, 108,
        100, 10]]).2.2.2 (fun _ _ => rfl) (by decide),
    (CountingWriter_count (shortWriter 2) () [[72, 101, 108], [10]]).2.2.1
      (by decide) (by decide)⟩

end Ex72

namespace Ex414

/-! ### The filesystem operations -/

/-- The directory made for the cache file of a repository, and other values of `Dir`. -/
theorem Dir_examples :
    Dir "./data/o/r/issues.json" = "data/o/r" ∧ Dir "./data/x/../y.json" = "data"
    ∧ Dir "/a//b/./c" = "/a/b" ∧ Dir "a" = "." ∧ Dir "/a" = "/" ∧ Dir "../../a/b" = "../../a"
    ∧ ancestors "data/o/r" = ["data", "data/o", "data/o/r"] := by
  decide

/-- The scanner on well-formed and on malformed input. -/
theorem checkValid_examples :
    checkValid "[\x7b\"number\":1,\"id\":10\x7d, \x7b\"number\":2,\"id\":11\x7d]" = true
    ∧ checkValid " [ ] " = true ∧ checkValid "\x7b\"a\":[1,\x7b\"b\":null\x7d]\x7d" = true
    ∧ checkValid "-0.5e+10" = true ∧ checkValid "\"a\\u12aF\"" = true
    ∧ checkValid "true" = true ∧ checkValid "null" = true
    ∧ checkValid "" = false ∧ checkValid "[1,]" = false ∧ checkValid "[1 2]" = false
    ∧ checkValid "\x7b\"a\":1,\x7d" = false ∧ checkValid "\x7b\"a\" 1\x7d" = false
    ∧ checkValid "01" = false ∧ checkValid "1." = false ∧ checkValid "nul" = false
    ∧ checkValid "null x" = false ∧ checkValid "[]]" = false ∧ checkValid "\"x" = false := by
  decide

theorem Stat_notExist {fs : FS} {name : String} (h : Stat fs name = some Error.ErrNotExist) :
    fs.lookupFault name = none ∧ fs.files name = none ∧ fs.dirs name = false := by
  unfold Stat at h
  cases hl : fs.lookupFault name with
  | some e => simp [hl] at h
  | none =>
    simp only [hl] at h
    cases hf : fs.files name <;> cases hd : fs.dirs name <;> simp [hf, hd] at h ⊢

theorem Stat_of_file {fs : FS} {name content : String} (hl : fs.lookupFault name = none)
    (hf : fs.files name = some content) : Stat fs name = none := by
  simp [Stat, hl, hf]

theorem ReadFile_ok {fs : FS} {name content : String} (h : ReadFile fs name = (content, none)) :
    fs.lookupFault name = none ∧ fs.files name = some content ∧ fs.readFault name = none := by
  unfold ReadFile at h
  cases hl : fs.lookupFault name with
  | some e => simp [hl] at h
  | none =>
    cases hf : fs.files name with
    | none => cases hd : fs.dirs name <;> simp [hl, hf, hd] at h
    | some d =>
      cases hr : fs.readFault name with
      | some e => simp [hl, hf, hr] at h
      | none =>
        simp [hl, hf, hr] at h
        exact ⟨rfl, by rw [h], rfl⟩

theorem MkdirAll_frame {fs fs1 : FS} {path : String} {err : Option Error}
    (h : MkdirAll fs path = (err, fs1)) :
    fs1.files = fs.files ∧ fs1.lookupFault = fs.lookupFault ∧ fs1.createFault = fs.createFault
      ∧ fs1.writeFault = fs.writeFault ∧ fs1.readFault = fs.readFault
      ∧ (err.isSome → fs1 = fs) := by
  unfold MkdirAll at h
  split at h
  · cases h; simp
  · split at h
    · cases h; simp
    · split at h
      · cases h; simp
      · cases h; simp

theorem Create_ok {fs fs2 : FS} {name : String} (h : Create fs name = (none, fs2)) :
    fs2.files name = some "" ∧ fs2.lookupFault = fs.lookupFault
      ∧ fs2.writeFault = fs.writeFault ∧ fs2.readFault = fs.readFault := by
  unfold Create at h
  split at h
  · cases h
  · split at h
    · cases h
    · split at h
      · cases h
      · cases h; simp

theorem Copy_frame {fs fs3 : FS} {name : String} {src : Body} {err : Option Error}
    (h : Copy fs name src = (err, fs3)) :
    (∃ d, fs3.files name = some d) ∧ fs3.lookupFault = fs.lookupFault
      ∧ fs3.readFault = fs.readFault := by
  unfold Copy at h
  split at h
  · split at h
    · cases h; simp
    · cases h; simp
  · cases h; simp

theorem Copy_ok {fs fs3 : FS} {name : String} {src : Body}
    (h : Copy fs name src = (none, fs3)) : fs3.files name = some src.data := by
  unfold Copy at h
  split at h
  · split at h
    · cases h
    · obtain ⟨_, h2⟩ := Prod.mk.inj h
      subst h2; simp
  · obtain ⟨_, h2⟩ := Prod.mk.inj h
    subst h2; simp

/-! ### The cache -/

theorem readCached_requests (fs : FS) (p : String) (rq : List String) :
    (readCached fs p rq).requests = rq ∧ (readCached fs p rq).fs = fs := by
  unfold readCached
  split <;> simp

theorem readCached_val (fs : FS) (p : String) (rq rq2 : List String) :
    (readCached fs p rq).data = (readCached fs p rq2).data
      ∧ (readCached fs p rq).err = (readCached fs p rq2).err := by
  unfold readCached
  split <;> simp

/-- A call of `get` on a filesystem where stat of the cache file succeeds only reads. -/
theorem get_of_stat_ok (c : GhApiRepoCache) (kind : Kind) (net : HttpGet) (fs : FS)
    (h : Stat fs (c.cacheFile kind) = none) :
    c.get kind net fs = readCached fs (c.cacheFile kind) [] := by
  simp [GhApiRepoCache.get, h, IsNotExist]

theorem get_of_stat_error (c : GhApiRepoCache) (kind : Kind) (net : HttpGet) (fs : FS)
    (e : Error) (h : Stat fs (c.cacheFile kind) = some e) (hne : IsNotExist (some e) = false) :
    c.get kind net fs = { data := "", err := some e, fs := fs, requests := [] } := by
  simp [GhApiRepoCache.get, h, hne]

theorem get_of_mkdir_error (c : GhApiRepoCache) (kind : Kind) (net : HttpGet) (fs fs1 : FS)
    (e : Error) (h0 : Stat fs (c.cacheFile kind) = some Error.ErrNotExist)
    (h1 : MkdirAll fs (Dir (c.cacheFile kind)) = (some e, fs1)) :
    c.get kind net fs = { data := "", err := some e, fs := fs1, requests := [] } := by
  simp [GhApiRepoCache.get, h0, IsNotExist, h1]

theorem get_of_create_error (c : GhApiRepoCache) (kind : Kind) (net : HttpGet)
    (fs fs1 fs2 : FS) (e : Error) (h0 : Stat fs (c.cacheFile kind) = some Error.ErrNotExist)
    (h1 : MkdirAll fs (Dir (c.cacheFile kind)) = (none, fs1))
    (h2 : Create fs1 (c.cacheFile kind) = (some e, fs2)) :
    c.get kind net fs = { data := "", err := some e, fs := fs2, requests := [] } := by
  simp [GhApiRepoCache.get, h0, IsNotExist, h1, h2]

theorem get_of_transport_error (c : GhApiRepoCache) (kind : Kind) (net : HttpGet)
    (fs fs1 fs2 : FS) (e : Error) (h0 : Stat fs (c.cacheFile kind) = some Error.ErrNotExist)
    (h1 : MkdirAll fs (Dir (c.cacheFile kind)) = (none, fs1))
    (h2 : Create fs1 (c.cacheFile kind) = (none, fs2))
    (h3 : net (c.getUri kind) = Except.error e) :
    c.get kind net fs
      = { data := "", err := some e, fs := fs2, requests := [c.getUri kind] } := by
  simp [GhApiRepoCache.get, h0, IsNotExist, h1, h2, doHttpGetStreaming, h3]

theorem get_of_copy_error (c : GhApiRepoCache) (kind : Kind) (net : HttpGet)
    (fs fs1 fs2 fs3 : FS) (body : Body) (e : Error)
    (h0 : Stat fs (c.cacheFile kind) = some Error.ErrNotExist)
    (h1 : MkdirAll fs (Dir (c.cacheFile kind)) = (none, fs1))
    (h2 : Create fs1 (c.cacheFile kind) = (none, fs2))
    (h3 : net (c.getUri kind) = Except.ok body)
    (h4 : Copy fs2 (c.cacheFile kind) body = (some e, fs3)) :
    c.get kind net fs
      = { data := "", err := some e, fs := fs3, requests := [c.getUri kind] } := by
  simp [GhApiRepoCache.get, h0, IsNotExist, h1, h2, doHttpGetStreaming, h3, h4]

theorem get_of_copy_ok (c : GhApiRepoCache) (kind : Kind) (net : HttpGet)
    (fs fs1 fs2 fs3 : FS) (body : Body)
    (h0 : Stat fs (c.cacheFile kind) = some Error.ErrNotExist)
    (h1 : MkdirAll fs (Dir (c.cacheFile kind)) = (none, fs1))
    (h2 : Create fs1 (c.cacheFile kind) = (none, fs2))
    (h3 : net (c.getUri kind) = Except.ok body)
    (h4 : Copy fs2 (c.cacheFile kind) body = (none, fs3)) :
    c.get kind net fs = readCached fs3 (c.cacheFile kind) [c.getUri kind] := by
  simp [GhApiRepoCache.get, h0, IsNotExist, h1, h2, doHttpGetStreaming, h3, h4]

/-- A call of `get` requests at most one URI. -/
theorem get_requests_le (c : GhApiRepoCache) (kind : Kind) (net : HttpGet) (fs : FS) :
    (c.get kind net fs).requests.length ≤ 1 := by
  unfold GhApiRepoCache.get
  simp only []
  split
  · split
    · simp
    · split
      · simp
      · split
        · simp
        · split
          · simp
          · simp [(readCached_requests _ _ _).1]
  · split
    · simp
    · simp [(readCached_requests _ _ _).1]

theorem Stat_cases (fs : FS) (name : String) :
    Stat fs name = none ∨ Stat fs name = some Error.ErrNotExist
      ∨ ∃ e, Stat fs name = some e ∧ IsNotExist (some e) = false := by
  cases h : Stat fs name with
  | none => exact Or.inl rfl
  | some e =>
    cases e with
    | ErrNotExist => exact Or.inr (Or.inl rfl)
    | errno n => exact Or.inr (Or.inr ⟨_, rfl, rfl⟩)
    | transport n => exact Or.inr (Or.inr ⟨_, rfl, rfl⟩)
    | SyntaxError => exact Or.inr (Or.inr ⟨_, rfl, rfl⟩)
    | UnmarshalTypeError => exact Or.inr (Or.inr ⟨_, rfl, rfl⟩)

/-! ### Claims about the cache -/

/-- C1. Two calls of `get` in a row for the same repository and kind, the second on the
filesystem the first one left and each with any transport, request the transport at most
once in total; and when the first call returns without error, so does the second, with
exactly the same bytes. -/
theorem get_twice (c : GhApiRepoCache) (kind : Kind) (net1 net2 : HttpGet) (fs : FS) :
    (c.get kind net1 fs).requests.length
        + (c.get kind net2 (c.get kind net1 fs).fs).requests.length ≤ 1
    ∧ ((c.get kind net1 fs).err = none →
        (c.get kind net2 (c.get kind net1 fs).fs).err = none
        ∧ (c.get kind net2 (c.get kind net1 fs).fs).data = (c.get kind net1 fs).data) := by
  have second : ∀ fs3 : FS, Stat fs3 (c.cacheFile kind) = none → ∀ r : GetResult,
      r.fs = fs3 → r.requests.length ≤ 1 →
      (r.err = none → r.err = (readCached fs3 (c.cacheFile kind) []).err
          ∧ r.data = (readCached fs3 (c.cacheFile kind) []).data) →
      r.requests.length + (c.get kind net2 r.fs).requests.length ≤ 1
      ∧ (r.err = none → (c.get kind net2 r.fs).err = none
          ∧ (c.get kind net2 r.fs).data = r.data) := by
    intro fs3 hs r hfs hlen hval
    rw [hfs, get_of_stat_ok c kind net2 fs3 hs, (readCached_requests _ _ _).1]
    refine ⟨by simpa using hlen, fun he => ?_⟩
    obtain ⟨h1, h2⟩ := hval he
    exact ⟨by rw [← h1]; exact he, h2.symm⟩
  have failed : ∀ r : GetResult, r.requests = [] → (∃ e, r.err = some e) →
      r.requests.length + (c.get kind net2 r.fs).requests.length ≤ 1
      ∧ (r.err = none → (c.get kind net2 r.fs).err = none
          ∧ (c.get kind net2 r.fs).data = r.data) := by
    intro r hr he
    obtain ⟨e, he⟩ := he
    refine ⟨?_, fun h => by rw [he] at h; cases h⟩
    rw [hr]
    simpa using get_requests_le c kind net2 r.fs
  rcases Stat_cases fs (c.cacheFile kind) with h0 | h0 | ⟨e, h0, hne⟩
  · exact second fs h0 _ (by rw [get_of_stat_ok c kind net1 fs h0, (readCached_requests _ _ _).2])
      (get_requests_le _ _ _ _) (fun _ => by rw [get_of_stat_ok c kind net1 fs h0]; exact ⟨rfl, rfl⟩)
  · have hl := (Stat_notExist h0).1
    rcases h1 : MkdirAll fs (Dir (c.cacheFile kind)) with ⟨_ | e, fs1⟩
    · have hf1 := MkdirAll_frame h1
      rcases h2 : Create fs1 (c.cacheFile kind) with ⟨_ | e, fs2⟩
      · have hf2 := Create_ok h2
        have hs2 : Stat fs2 (c.cacheFile kind) = none :=
          Stat_of_file (by rw [hf2.2.1, hf1.2.1]; exact hl) hf2.1
        cases h3 : net1 (c.getUri kind) with
        | error e =>
          rw [get_of_transport_error c kind net1 fs fs1 fs2 e h0 h1 h2 h3]
          exact second fs2 hs2 _ rfl (by simp) (fun h => by cases h)
        | ok body =>
          rcases h4 : Copy fs2 (c.cacheFile kind) body with ⟨_ | e, fs3⟩
          · have hf3 := Copy_frame h4
            obtain ⟨d, hd⟩ := hf3.1
            have hs3 : Stat fs3 (c.cacheFile kind) = none :=
              Stat_of_file (by rw [hf3.2.1, hf2.2.1, hf1.2.1]; exact hl) hd
            rw [get_of_copy_ok c kind net1 fs fs1 fs2 fs3 body h0 h1 h2 h3 h4]
            exact second fs3 hs3 _ (readCached_requests _ _ _).2
              (by rw [(readCached_requests _ _ _).1]; simp)
              (fun _ => ⟨(readCached_val _ _ _ _).2, (readCached_val _ _ _ _).1⟩)
          · have hf3 := Copy_frame h4
            obtain ⟨d, hd⟩ := hf3.1
            have hs3 : Stat fs3 (c.cacheFile kind) = none :=
              Stat_of_file (by rw [hf3.2.1, hf2.2.1, hf1.2.1]; exact hl) hd
            rw [get_of_copy_error c kind net1 fs fs1 fs2 fs3 body e h0 h1 h2 h3 h4]
            exact second fs3 hs3 _ rfl (by simp) (fun h => by cases h)
      · rw [get_of_create_error c kind net1 fs fs1 fs2 e h0 h1 h2]
        exact failed _ rfl ⟨e, rfl⟩
    · rw [get_of_mkdir_error c kind net1 fs fs1 e h0 h1]
      exact failed _ rfl ⟨e, rfl⟩
  · rw [get_of_stat_error c kind net1 fs e h0 hne]
    exact failed _ rfl ⟨e, rfl⟩

/-- C1, at a concrete input: an empty filesystem, a transport that serves a two-element
array to the first call and fails for the second. -/
theorem get_twice_witness :
    (GhApiRepoCache.get { Repo := "o/r" } "issues" (servingNet "[1,2]") emptyFS).err = none
    ∧ (GhApiRepoCache.get { Repo := "o/r" } "issues" failingNet
          (GhApiRepoCache.get { Repo := "o/r" } "issues" (servingNet "[1,2]") emptyFS).fs).err
        = none
    ∧ (GhApiRepoCache.get { Repo := "o/r" } "issues" failingNet
          (GhApiRepoCache.get { Repo := "o/r" } "issues" (servingNet "[1,2]") emptyFS).fs).data
        = (GhApiRepoCache.get { Repo := "o/r" } "issues" (servingNet "[1,2]") emptyFS).data :=
  ⟨by decide,
    (get_twice { Repo := "o/r" } "issues" (servingNet "[1,2]") failingNet emptyFS).2
      (by decide)⟩

/-- C2, the code at the failing input: on an empty filesystem, with a transport that
fails, `get` returns the transport error but leaves the empty file it created before the
request; the next `get` finds that file, requests nothing, and returns the empty string
with a nil error. -/
theorem get_transport_failure_then_empty_success :
    (GhApiRepoCache.get { Repo := "o/r" } "issues" failingNet emptyFS).err
        = some (Error.transport 1)
    ∧ (GhApiRepoCache.get { Repo := "o/r" } "issues" failingNet emptyFS).data = ""
    ∧ (GhApiRepoCache.get { Repo := "o/r" } "issues" failingNet emptyFS).fs.files
          "./data/o/r/issues.json" = some ""
    ∧ (GhApiRepoCache.get { Repo := "o/r" } "issues" failingNet
          (GhApiRepoCache.get { Repo := "o/r" } "issues" failingNet emptyFS).fs).err = none
    ∧ (GhApiRepoCache.get { Repo := "o/r" } "issues" failingNet
          (GhApiRepoCache.get { Repo := "o/r" } "issues" failingNet emptyFS).fs).data = ""
    ∧ (GhApiRepoCache.get { Repo := "o/r" } "issues" failingNet
          (GhApiRepoCache.get { Repo := "o/r" } "issues" failingNet emptyFS).fs).requests
        = [] := by
  decide

theorem append_slash_inj (l1 l2 t1 t2 : List Char) (h1 : '/' ∉ t1) (h2 : '/' ∉ t2)
    (h : l1 ++ '/' :: t1 = l2 ++ '/' :: t2) : l1 = l2 ∧ t1 = t2 := by
  induction l1 generalizing l2 with
  | nil =>
    cases l2 with
    | nil => exact ⟨rfl, by simpa using h⟩
    | cons b l2 =>
      simp only [List.nil_append, List.cons_append, List.cons.injEq] at h
      exact absurd (by rw [h.2]; simp) h1
  | cons a l1 ih =>
    cases l2 with
    | nil =>
      simp only [List.nil_append, List.cons_append, List.cons.injEq] at h
      exact absurd (by rw [← h.2]; simp) h2
    | cons b l2 =>
      simp only [List.cons_append, List.cons.injEq] at h
      obtain ⟨hl, ht⟩ := ih l2 h.2
      exact ⟨by rw [h.1, hl], ht⟩

/-- C3 (as stated, refuted). Two distinct pairs of repository and kind with the same
cache path: the slash may sit in the repository or in the kind. -/
theorem cacheFile_collision :
    GhApiRepoCache.cacheFile { Repo := "a/b" } "c" = GhApiRepoCache.cacheFile { Repo := "a" } "b/c"
    ∧ ¬ ("a/b" = "a" ∧ "c" = "b/c") := by
  decide

/-- C3 (amended). The cache path is the text "./data/" ++ Repo ++ "/" ++ kind ++ ".json",
a function of the repository and the kind alone; and for kinds without a slash, equal
cache paths come from equal repositories and equal kinds. -/
theorem cacheFile_injective (c1 c2 : GhApiRepoCache) (k1 k2 : Kind)
    (h1 : '/' ∉ k1.data) (h2 : '/' ∉ k2.data)
    (h : c1.cacheFile k1 = c2.cacheFile k2) :
    c1.cacheFile k1 = "./data/" ++ c1.Repo ++ "/" ++ k1 ++ ".json"
    ∧ c1.Repo = c2.Repo ∧ k1 = k2 := by
  refine ⟨rfl, ?_⟩
  have hd := congrArg String.data h
  simp only [GhApiRepoCache.cacheFile, String.data_append] at hd
  have hd2 : c1.Repo.data ++ '/' :: (k1.data ++ ".json".data)
      = c2.Repo.data ++ '/' :: (k2.data ++ ".json".data) := by
    have hd1 : "./data/".data ++ (c1.Repo.data ++ '/' :: (k1.data ++ ".json".data))
        = "./data/".data ++ (c2.Repo.data ++ '/' :: (k2.data ++ ".json".data)) := by
      simpa [List.append_assoc] using hd
    exact List.append_cancel_left hd1
  have hj : '/' ∉ ".json".data := by decide
  obtain ⟨hr, hk⟩ := append_slash_inj _ _ _ _
    (by simp only [List.mem_append, not_or]; exact ⟨h1, hj⟩)
    (by simp only [List.mem_append, not_or]; exact ⟨h2, hj⟩) hd2
  exact ⟨String.ext hr, String.ext (List.append_cancel_right hk)⟩

/-- C3 (amended), at the kinds "issues" and "milestones", which hold no slash. -/
theorem cacheFile_injective_witness :
    ('/' ∉ "issues".data ∧ '/' ∉ "milestones".data)
    ∧ GhApiRepoCache.cacheFile { Repo := "o/r" } "issues"
        = "./data/" ++ "o/r" ++ "/" ++ "issues" ++ ".json"
    ∧ "o/r" = "o/r" ∧ "issues" = "issues" :=
  ⟨by decide, cacheFile_injective { Repo := "o/r" } { Repo := "o/r" } "issues" "issues"
    (by decide) (by decide) rfl⟩

/-- C4 (as stated, refuted). On an empty filesystem where the files the process creates
cannot be opened for reading, nothing exists at the cache path, and directory creation,
file creation, the transport call and the streaming copy all succeed, the transport
delivering the body; the file holds the body, yet `get` returns the error of the read
that follows the copy, and no bytes. -/
theorem fetch_then_read_fails :
    Stat (fsReadFault "./data/o/r/issues.json" 13) "./data/o/r/issues.json"
        = some Error.ErrNotExist
    ∧ (MkdirAll (fsReadFault "./data/o/r/issues.json" 13) (Dir "./data/o/r/issues.json")).1
        = none
    ∧ (Create (MkdirAll (fsReadFault "./data/o/r/issues.json" 13)
          (Dir "./data/o/r/issues.json")).2 "./data/o/r/issues.json").1 = none
    ∧ doHttpGetStreaming (servingNet "[1,2]")
          (GhApiRepoCache.getUri { Repo := "o/r" } "issues")
        = Except.ok { data := "[1,2]", err := none }
    ∧ (Copy (Create (MkdirAll (fsReadFault "./data/o/r/issues.json" 13)
          (Dir "./data/o/r/issues.json")).2 "./data/o/r/issues.json").2
          "./data/o/r/issues.json" { data := "[1,2]", err := none }).1 = none
    ∧ (GhApiRepoCache.get { Repo := "o/r" } "issues" (servingNet "[1,2]")
          (fsReadFault "./data/o/r/issues.json" 13)).fs.files "./data/o/r/issues.json"
        = some "[1,2]"
    ∧ (GhApiRepoCache.get { Repo := "o/r" } "issues" (servingNet "[1,2]")
          (fsReadFault "./data/o/r/issues.json" 13)).err = some (Error.errno 13)
    ∧ (GhApiRepoCache.get { Repo := "o/r" } "issues" (servingNet "[1,2]")
          (fsReadFault "./data/o/r/issues.json" 13)).data ≠ "[1,2]" :=
  ⟨by decide, by decide, by decide, rfl, by decide, by decide, by decide, by decide⟩

/-- C4 (amended). When nothing exists at the cache path and directory creation, file
creation, the transport call and the streaming copy all succeed, `get` requests the
transport once and leaves at the cache path a file whose content is exactly the body
delivered; it returns exactly that body provided the file can be read back, and
otherwise the error of that read, with no bytes. -/
theorem get_fetch (c : GhApiRepoCache) (kind : Kind) (net : HttpGet)
    (fs fs1 fs2 fs3 : FS) (body : Body)
    (h0 : Stat fs (c.cacheFile kind) = some Error.ErrNotExist)
    (h1 : MkdirAll fs (Dir (c.cacheFile kind)) = (none, fs1))
    (h2 : Create fs1 (c.cacheFile kind) = (none, fs2))
    (h3 : doHttpGetStreaming net (c.getUri kind) = Except.ok body)
    (h4 : Copy fs2 (c.cacheFile kind) body = (none, fs3)) :
    (c.get kind net fs).fs = fs3
    ∧ (c.get kind net fs).fs.files (c.cacheFile kind) = some body.data
    ∧ (c.get kind net fs).requests = [c.getUri kind]
    ∧ (fs.readFault (c.cacheFile kind) = none →
        (c.get kind net fs).data = body.data ∧ (c.get kind net fs).err = none)
    ∧ (∀ e, fs.readFault (c.cacheFile kind) = some e →
        (c.get kind net fs).data = "" ∧ (c.get kind net fs).err = some (Error.errno e)) := by
  have h3n : net (c.getUri kind) = Except.ok body := by
    unfold doHttpGetStreaming at h3
    split at h3
    · cases h3
    · rename_i resp hresp
      rw [hresp]; exact h3
  have hl := (Stat_notExist h0).1
  have hf1 := MkdirAll_frame h1
  have hf2 := Create_ok h2
  have hf3 := Copy_frame h4
  have hd := Copy_ok h4
  have hl3 : fs3.lookupFault (c.cacheFile kind) = none := by
    rw [hf3.2.1, hf2.2.1, hf1.2.1]; exact hl
  have hr3 : fs3.readFault (c.cacheFile kind) = fs.readFault (c.cacheFile kind) := by
    rw [hf3.2.2, hf2.2.2.2, hf1.2.2.2.2.1]
  rw [get_of_copy_ok c kind net fs fs1 fs2 fs3 body h0 h1 h2 h3n h4]
  refine ⟨(readCached_requests _ _ _).2, by rw [(readCached_requests _ _ _).2]; exact hd,
    (readCached_requests _ _ _).1, fun hr => ?_, fun e hr => ?_⟩
  · simp [readCached, ReadFile, hl3, hd, hr3, hr]
  · simp [readCached, ReadFile, hl3, hd, hr3, hr]

/-- C4 (amended), at a concrete input: an empty filesystem without faults. -/
theorem get_fetch_witness :
    (GhApiRepoCache.get { Repo := "o/r" } "issues" (servingNet "[1,2]") emptyFS).fs.files
        (GhApiRepoCache.cacheFile { Repo := "o/r" } "issues") = some "[1,2]"
    ∧ (GhApiRepoCache.get { Repo := "o/r" } "issues" (servingNet "[1,2]") emptyFS).data
        = "[1,2]"
    ∧ (GhApiRepoCache.get { Repo := "o/r" } "issues" (servingNet "[1,2]") emptyFS).err
        = none :=
  have h := get_fetch { Repo := "o/r" } "issues" (servingNet "[1,2]") emptyFS
    (MkdirAll emptyFS (Dir "./data/o/r/issues.json")).2
    (Create (MkdirAll emptyFS (Dir "./data/o/r/issues.json")).2 "./data/o/r/issues.json").2
    (Copy (Create (MkdirAll emptyFS (Dir "./data/o/r/issues.json")).2
      "./data/o/r/issues.json").2 "./data/o/r/issues.json" { data := "[1,2]", err := none }).2
    { data := "[1,2]", err := none } (by decide) rfl rfl rfl rfl
  ⟨h.2.1, h.2.2.2.1 rfl⟩

/-- C5. When a readable file exists at the cache path, `get` requests nothing from the
transport, whatever the transport would answer, returns exactly the content of the file
with a nil error, and leaves the filesystem as it was. -/
theorem get_cached (c : GhApiRepoCache) (kind : Kind) (net : HttpGet) (fs : FS)
    (content : String) (h : ReadFile fs (c.cacheFile kind) = (content, none)) :
    c.get kind net fs = { data := content, err := none, fs := fs, requests := [] } := by
  obtain ⟨hl, hf, _⟩ := ReadFile_ok h
  rw [get_of_stat_ok c kind net fs (Stat_of_file hl hf)]
  simp [readCached, h]

/-- C5, at a concrete input: the cache file is there and the transport fails. -/
theorem get_cached_witness :
    ReadFile (fsWithFiles [("./data/o/r/issues.json", "[5]")])
        (GhApiRepoCache.cacheFile { Repo := "o/r" } "issues") = ("[5]", none)
    ∧ GhApiRepoCache.get { Repo := "o/r" } "issues" failingNet
          (fsWithFiles [("./data/o/r/issues.json", "[5]")])
        = { data := "[5]", err := none, fs := fsWithFiles [("./data/o/r/issues.json", "[5]")],
            requests := [] } :=
  ⟨by decide, get_cached { Repo := "o/r" } "issues" failingNet
    (fsWithFiles [("./data/o/r/issues.json", "[5]")]) "[5]" (by decide)⟩

/-- C7. When stat of the cache path fails with an error other than "does not exist",
`get` returns that error at once: it requests nothing from the transport and leaves the
filesystem, directories and files, as it was. -/
theorem get_stat_failure (c : GhApiRepoCache) (kind : Kind) (net : HttpGet) (fs : FS)
    (e : Error) (h : Stat fs (c.cacheFile kind) = some e)
    (hne : IsNotExist (some e) = false) :
    c.get kind net fs = { data := "", err := some e, fs := fs, requests := [] } := by
  simp [GhApiRepoCache.get, h, hne]

/-- C7, at a concrete input: permission denied on the cache path. -/
theorem get_stat_failure_witness :
    Stat (fsLookupFault "./data/o/r/issues.json" 13)
        (GhApiRepoCache.cacheFile { Repo := "o/r" } "issues") = some (Error.errno 13)
    ∧ GhApiRepoCache.get { Repo := "o/r" } "issues" (servingNet "[1,2]")
          (fsLookupFault "./data/o/r/issues.json" 13)
        = { data := "", err := some (Error.errno 13),
            fs := fsLookupFault "./data/o/r/issues.json" 13, requests := [] } :=
  ⟨by decide, get_stat_failure { Repo := "o/r" } "issues" (servingNet "[1,2]")
    (fsLookupFault "./data/o/r/issues.json" 13) (Error.errno 13) (by decide) rfl⟩

/-- C8 (as stated, refuted). For the kind "Issues" the URI is not the one built from the
lowercase form of the kind. -/
theorem getUri_not_lowercased :
    GhApiRepoCache.getUri { Repo := "o/r" } "Issues"
      ≠ "https://api.github.com" ++ "/repos/" ++ "o/r" ++ "/" ++ lowercase "Issues" := by
  decide

/-- C8 (amended). The URI is api-base ++ "/repos/" ++ Repo ++ "/" ++ kind with api-base
"https://api.github.com" and the kind taken as it is, without any change of case; so it
ends in the lowercase form of the kind exactly when the kind is in lowercase already. -/
theorem getUri_eq (c : GhApiRepoCache) (kind : Kind) :
    c.getUri kind = "https://api.github.com" ++ "/repos/" ++ c.Repo ++ "/" ++ kind
    ∧ (lowercase kind = kind →
        c.getUri kind
          = "https://api.github.com" ++ "/repos/" ++ c.Repo ++ "/" ++ lowercase kind) := by
  refine ⟨rfl, fun h => ?_⟩
  rw [h]
  rfl

/-- C8 (amended), at the kind "issues". -/
theorem getUri_eq_witness :
    lowercase "issues" = "issues"
    ∧ GhApiRepoCache.getUri { Repo := "o/r" } "issues"
        = "https://api.github.com" ++ "/repos/" ++ "o/r" ++ "/" ++ lowercase "issues" :=
  ⟨by decide, (getUri_eq { Repo := "o/r" } "issues").2 (by decide)⟩

/-! ### Claims about the decoder -/

theorem scan_open (n : Nat) (cs : List Char) (h : n < maxNestingDepth) :
    scanBytes (openArrays n) ('[' :: cs) = scanBytes (openArrays (n + 1)) cs := by
  have hlen : n + 1 ≤ maxNestingDepth := h
  cases n with
  | zero =>
    simp [scanBytes, Scanner.run, openArrays, stateBeginValue, isSpace, pushParseState,
      maxNestingDepth]
  | succ m =>
    simp [scanBytes, Scanner.run, openArrays, stateBeginValueOrEmpty, stateBeginValue, isSpace,
      pushParseState, hlen, List.replicate_succ]

theorem scan_open_too_deep (n : Nat) (cs : List Char) (h : maxNestingDepth ≤ n) :
    scanBytes (openArrays n) ('[' :: cs) = false := by
  have hlen : ¬ n + 1 ≤ maxNestingDepth := by omega
  cases n with
  | zero => simp [maxNestingDepth] at h
  | succ m =>
    simp [scanBytes, Scanner.run, openArrays, stateBeginValueOrEmpty, stateBeginValue, isSpace,
      pushParseState, hlen, Scanner.error]

theorem scan_opens (k n : Nat) (cs : List Char) (h : n + k ≤ maxNestingDepth) :
    scanBytes (openArrays n) (List.replicate k '[' ++ cs) = scanBytes (openArrays (n + k)) cs := by
  induction k generalizing n with
  | zero => rfl
  | succ k ih =>
    rw [List.replicate_succ, List.cons_append, scan_open n _ (by omega), ih (n + 1) (by omega)]
    congr 2
    omega

theorem scan_close_first (n : Nat) (cs : List Char) :
    scanBytes (openArrays (n + 1)) (']' :: cs) = scanBytes (closedArray n) cs := by
  cases n with
  | zero =>
    simp [scanBytes, Scanner.run, openArrays, closedArray, stateBeginValueOrEmpty, stateEndValue,
      isSpace, popParseState, List.replicate_succ]
  | succ m =>
    simp [scanBytes, Scanner.run, openArrays, closedArray, stateBeginValueOrEmpty, stateEndValue,
      isSpace, popParseState, List.replicate_succ]

theorem scan_close (n : Nat) (cs : List Char) :
    scanBytes (closedArray (n + 1)) (']' :: cs) = scanBytes (closedArray n) cs := by
  cases n with
  | zero =>
    simp [scanBytes, Scanner.run, closedArray, stateEndValue, isSpace, popParseState,
      List.replicate_succ]
  | succ m =>
    simp [scanBytes, Scanner.run, closedArray, stateEndValue, isSpace, popParseState,
      List.replicate_succ]

theorem scan_closes (n : Nat) : scanBytes (closedArray n) (List.replicate n ']') = true := by
  induction n with
  | zero => decide
  | succ n ih => rw [List.replicate_succ, scan_close, ih]

/-- The syntax check and the depth of nesting: arrays nested up to maxNestingDepth deep
are well-formed, one level more is a syntax error. -/
theorem checkValid_nested (n : Nat) :
    checkValid (nestedArrays (n + 1)) = decide (n + 1 ≤ maxNestingDepth) := by
  unfold checkValid nestedArrays
  show scanBytes (openArrays 0) _ = _
  by_cases h : n + 1 ≤ maxNestingDepth
  · rw [scan_opens (n + 1) 0 _ (by omega), Nat.zero_add, List.replicate_succ, scan_close_first,
      scan_closes]
    simp [h]
  · have hn : n + 1 = maxNestingDepth + ((n - maxNestingDepth) + 1) := by omega
    rw [hn, List.replicate_add, List.append_assoc, scan_opens maxNestingDepth 0 _ (by omega),
      Nat.zero_add, List.replicate_succ, List.cons_append,
      scan_open_too_deep _ _ (Nat.le_refl _)]
    simp only [← hn]
    simp [h]

theorem Unmarshal_rejects {α : Type} (elems : String → List α × Option Error) (data : String)
    (hbad : checkValid data = false ∨ topLevel data = TopLevel.object
      ∨ topLevel data = TopLevel.string ∨ topLevel data = TopLevel.number
      ∨ topLevel data = TopLevel.bool) :
    Unmarshal elems data
      = (none, some (if checkValid data then Error.UnmarshalTypeError else Error.SyntaxError)) := by
  unfold Unmarshal
  cases hv : checkValid data with
  | false => simp
  | true =>
    rcases hbad with h | h | h | h | h
    · rw [hv] at h; cases h
    all_goals simp [h]

theorem Unmarshal_null {α : Type} (elems : String → List α × Option Error) (data : String)
    (hv : checkValid data = true) (hn : topLevel data = TopLevel.null) :
    Unmarshal elems data = (none, none) := by
  simp [Unmarshal, hv, hn]

theorem get_of_readable (c : GhApiRepoCache) (kind : Kind) (net : HttpGet) (fs : FS)
    (data : String) (h : ReadFile fs (c.cacheFile kind) = (data, none)) :
    c.get kind net fs = { data := data, err := none, fs := fs, requests := [] } := by
  obtain ⟨hl, hf, _⟩ := ReadFile_ok h
  rw [get_of_stat_ok c kind net fs (Stat_of_file hl hf)]
  simp [readCached, h]

/-- C6 (as stated, refuted). The cached bytes `null` are well-formed JSON whose top-level
value is not an array, and `Issues` and `Milestones` return a nil slice with a nil
error: an empty successful result. -/
theorem decode_null_succeeds :
    checkValid "null" = true ∧ topLevel "null" = TopLevel.null
    ∧ (GhApiRepoCache.Issues noElems { Repo := "o/r" } failingNet
          (fsWithFiles [("./data/o/r/issues.json", "null")])).err = none
    ∧ (GhApiRepoCache.Issues noElems { Repo := "o/r" } failingNet
          (fsWithFiles [("./data/o/r/issues.json", "null")])).items = none
    ∧ (GhApiRepoCache.Milestones noElems { Repo := "o/r" } failingNet
          (fsWithFiles [("./data/o/r/milestones.json", "null")])).err = none
    ∧ (GhApiRepoCache.Milestones noElems { Repo := "o/r" } failingNet
          (fsWithFiles [("./data/o/r/milestones.json", "null")])).items = none := by
  decide

/-- C6 (amended). `Issues` decodes the bytes cached for the issues, `Milestones` those
cached for the milestones, each on its own. For cached bytes that are not well-formed
JSON (nesting deeper than maxNestingDepth included), or whose top-level value is an
object, a string, a number or a boolean, the function fails with a decode error, a
syntax error for the former and a type error for the latter, and returns a nil slice,
whatever the decoding of array elements would do. For well-formed cached bytes whose
top-level value is null, it returns a nil slice and a nil error. -/
theorem decode_rejects (elemsI : String → List Issue × Option Error)
    (elemsM : String → List Milestones × Option Error) (c : GhApiRepoCache) (net : HttpGet)
    (fs : FS) :
    (∀ data : String, ReadFile fs (c.cacheFile "issues") = (data, none) →
      ((checkValid data = false ∨ topLevel data = TopLevel.object
          ∨ topLevel data = TopLevel.string ∨ topLevel data = TopLevel.number
          ∨ topLevel data = TopLevel.bool) →
        (c.Issues elemsI net fs).items = none
        ∧ (c.Issues elemsI net fs).err
          = some (if checkValid data then Error.UnmarshalTypeError else Error.SyntaxError))
      ∧ (checkValid data = true → topLevel data = TopLevel.null →
        (c.Issues elemsI net fs).items = none ∧ (c.Issues elemsI net fs).err = none))
    ∧ (∀ data : String, ReadFile fs (c.cacheFile "milestones") = (data, none) →
      ((checkValid data = false ∨ topLevel data = TopLevel.object
          ∨ topLevel data = TopLevel.string ∨ topLevel data = TopLevel.number
          ∨ topLevel data = TopLevel.bool) →
        (c.Milestones elemsM net fs).items = none
        ∧ (c.Milestones elemsM net fs).err
          = some (if checkValid data then Error.UnmarshalTypeError else Error.SyntaxError))
      ∧ (checkValid data = true → topLevel data = TopLevel.null →
        (c.Milestones elemsM net fs).items = none
        ∧ (c.Milestones elemsM net fs).err = none)) := by
  refine ⟨fun data h => ⟨fun hbad => ?_, fun hv hn => ?_⟩,
    fun data h => ⟨fun hbad => ?_, fun hv hn => ?_⟩⟩
  · simp [GhApiRepoCache.Issues, get_of_readable c "issues" net fs data h,
      Unmarshal_rejects elemsI data hbad]
  · simp [GhApiRepoCache.Issues, get_of_readable c "issues" net fs data h,
      Unmarshal_null elemsI data hv hn]
  · simp [GhApiRepoCache.Milestones, get_of_readable c "milestones" net fs data h,
      Unmarshal_rejects elemsM data hbad]
  · simp [GhApiRepoCache.Milestones, get_of_readable c "milestones" net fs data h,
      Unmarshal_null elemsM data hv hn]

/-- C6 (amended), at concrete inputs, each with one cache file only: an empty object
cached for the issues; bytes that are not JSON cached for the milestones; arrays nested
one level deeper than maxNestingDepth cached for the issues; the bytes null, between
white space, cached for the milestones. -/
theorem decode_rejects_witness :
    (topLevel "\x7b\x7d" = TopLevel.object
      ∧ (GhApiRepoCache.Issues noElems { Repo := "o/r" } failingNet
            (fsWithFiles [("./data/o/r/issues.json", "\x7b\x7d")])).items = none
      ∧ (GhApiRepoCache.Issues noElems { Repo := "o/r" } failingNet
            (fsWithFiles [("./data/o/r/issues.json", "\x7b\x7d")])).err
          = some Error.UnmarshalTypeError)
    ∧ (checkValid "[1,2" = false
      ∧ (GhApiRepoCache.Milestones noElems { Repo := "o/r" } failingNet
            (fsWithFiles [("./data/o/r/milestones.json", "[1,2")])).err
          = some Error.SyntaxError)
    ∧ (checkValid (nestedArrays 10001) = false
      ∧ (GhApiRepoCache.Issues noElems { Repo := "o/r" } failingNet
            (fsWithFiles [("./data/o/r/issues.json", nestedArrays 10001)])).err
          = some Error.SyntaxError)
    ∧ (checkValid " null\n" = true ∧ topLevel " null\n" = TopLevel.null
      ∧ (GhApiRepoCache.Milestones noElems { Repo := "o/r" } failingNet
            (fsWithFiles [("./data/o/r/milestones.json", " null\n")])).items = none
      ∧ (GhApiRepoCache.Milestones noElems { Repo := "o/r" } failingNet
            (fsWithFiles [("./data/o/r/milestones.json", " null\n")])).err = none) := by
  have deep : checkValid (nestedArrays 10001) = false :=
    (checkValid_nested 10000).trans (by decide)
  refine ⟨⟨by decide, ?_⟩, ⟨by decide, ?_⟩, ⟨deep, ?_⟩, ⟨by decide, by decide, ?_⟩⟩
  · exact ((decode_rejects noElems noElems { Repo := "o/r" } failingNet
      (fsWithFiles [("./data/o/r/issues.json", "\x7b\x7d")])).1 "\x7b\x7d" (by decide)).1
      (Or.inr (Or.inl (by decide)))
  · exact (((decode_rejects noElems noElems { Repo := "o/r" } failingNet
      (fsWithFiles [("./data/o/r/milestones.json", "[1,2")])).2 "[1,2" (by decide)).1
      (Or.inl (by decide))).2
  · have h := (((decode_rejects noElems noElems { Repo := "o/r" } failingNet
      (fsWithFiles [("./data/o/r/issues.json", nestedArrays 10001)])).1 (nestedArrays 10001)
      rfl).1 (Or.inl deep)).2
    rw [deep] at h
    exact h
  · exact ((decode_rejects noElems noElems { Repo := "o/r" } failingNet
      (fsWithFiles [("./data/o/r/milestones.json", " null\n")])).2 " null\n" (by decide)).2
      (by decide) (by decide)

end Ex414
